import Mathlib

/-!
Shallow embedding of the document-handler pipeline of trustbloc/sidetree-svc-go
(`pkg/dochandler/handler.go`, `pkg/api/operation`, `pkg/api/protocol`).

Go strings are modelled as `List Char` (one element per byte of the ASCII
strings the handler manipulates); Go errors are modelled as their message
strings; fallible Go calls return `Except Err`.  External collaborators
(protocol client, operation parser, document validator/composer/transformer,
operation processor, unpublished-operation store, batch writer) are modelled
as oracle functions; the mutable state of the store and the batch writer is
threaded explicitly.
-/

namespace Sidetree

/-- A Go string, one `Char` per byte. -/
abbrev GoStr := List Char

/-- Convert a Lean string literal to the `GoStr` model. -/
def gs (s : String) : GoStr := s.data

/-- Go byte slices (`[]byte`). -/
abbrev Bytes := List Nat

/-- Go errors, modelled by their message (`err.Error()`). -/
abbrev Err := GoStr

/-- `strings.HasPrefix(s, pre)`. -/
def goHasPre (s pre : GoStr) : Bool := pre.isPrefixOf s

/-- Search downward from position `k` for the largest index at which `sub`
occurs in `s`; `-1` when there is none.  Implements the search performed by
`strings.LastIndex`. -/
def lastOccurAux (s sub : GoStr) : Nat → Int
  | 0 => if sub.isPrefixOf s then (0 : Int) else -1
  | (k+1) => if sub.isPrefixOf (s.drop (k+1)) then ((k+1 : Nat) : Int) else lastOccurAux s sub k

/-- `strings.LastIndex(s, sub)`: index of the last occurrence of `sub` in `s`,
or `-1` when `sub` does not occur. -/
def goLastIndex (s sub : GoStr) : Int := lastOccurAux s sub s.length

/-- `strings.Index(s, sub)`: index of the first occurrence of `sub` in `s`,
or `-1` when `sub` does not occur. -/
def goIndex (s sub : GoStr) : Int :=
  match (List.range (s.length + 1)).find? (fun i => sub.isPrefixOf (s.drop i)) with
  | some i => (i : Int)
  | none => -1

/-- `strings.Contains(s, sub)`. -/
def goContains (s sub : GoStr) : Bool := goIndex s sub != -1

/-- Go slicing `s[a:b]` (with `a ≤ b ≤ len s` in every guarded use below). -/
def goSlice (s : GoStr) (a b : Nat) : GoStr := (s.drop a).take (b - a)

/-- Rendering of a Go `[]string` by `fmt`'s `%v` verb: elements joined by a
single space, between square brackets. -/
def goFmtStrSlice (l : List GoStr) : GoStr := '[' :: (List.intercalate [' '] l) ++ [']']

section StrLemmas

lemma isPrefixOf_true_iff (l₁ l₂ : GoStr) : l₁.isPrefixOf l₂ = true ↔ l₁ <+: l₂ := by
  exact List.isPrefixOf_iff_prefix

lemma lastOccurAux_eq_of (s sub : GoStr) (m : Nat) :
    ∀ k, m ≤ k → sub.isPrefixOf (s.drop m) = true →
    (∀ j, m < j → j ≤ k → sub.isPrefixOf (s.drop j) = false) →
    lastOccurAux s sub k = (m : Int) := by
  intro k
  induction k with
  | zero =>
    intro hm hmatch _
    have hm0 : m = 0 := Nat.le_zero.mp hm
    subst hm0
    rw [List.drop_zero] at hmatch
    simp only [lastOccurAux]
    rw [hmatch]
    simp
  | succ k ih =>
    intro hm hmatch habove
    by_cases hcase : m = k + 1
    · subst hcase
      simp only [lastOccurAux]
      rw [hmatch]
      simp
    · have hmk : m ≤ k := Nat.lt_succ_iff.mp (Nat.lt_of_le_of_ne hm hcase)
      have hk1 : sub.isPrefixOf (s.drop (k+1)) = false :=
        habove (k+1) (Nat.lt_succ_of_le hmk) (Nat.le_refl _)
      have hstep : lastOccurAux s sub (k+1) = lastOccurAux s sub k := by
        simp only [lastOccurAux]
        rw [hk1]
        simp
      rw [hstep]
      exact ih hmk hmatch (fun j hj hjk => habove j hj (Nat.le_succ_of_le hjk))

lemma lastOccurAux_neg_of (s sub : GoStr) :
    ∀ k, (∀ j, j ≤ k → sub.isPrefixOf (s.drop j) = false) →
    lastOccurAux s sub k = -1 := by
  intro k
  induction k with
  | zero =>
    intro h
    have h0 := h 0 (Nat.le_refl 0)
    rw [List.drop_zero] at h0
    simp only [lastOccurAux]
    rw [h0]
    simp
  | succ k ih =>
    intro h
    have hk1 := h (k+1) (Nat.le_refl _)
    simp only [lastOccurAux]
    rw [hk1]
    simp only [Bool.false_eq_true, if_false]
    exact ih (fun j hj => h j (Nat.le_succ_of_le hj))

lemma isPrefixOf_false_of_short (sub t : GoStr) (h : t.length < sub.length) :
    sub.isPrefixOf t = false := by
  by_contra hcon
  have htrue : sub.isPrefixOf t = true := by
    cases hval : sub.isPrefixOf t
    · exact absurd hval hcon
    · rfl
  have := ((isPrefixOf_true_iff sub t).mp htrue).length_le
  omega

/-- The last occurrence of a non-empty `sub` in `pre ++ sub` is at `pre.length`. -/
lemma goLastIndex_append (pre sub : GoStr) (hs : sub ≠ []) :
    goLastIndex (pre ++ sub) sub = (pre.length : Int) := by
  have hlen : (pre ++ sub).length = pre.length + sub.length := List.length_append _ _
  have hsublen : 0 < sub.length := List.length_pos.mpr hs
  apply lastOccurAux_eq_of
  · omega
  · rw [List.drop_left]
    exact (isPrefixOf_true_iff sub sub).mpr (List.prefix_refl sub)
  · intro j hj hjk
    apply isPrefixOf_false_of_short
    rw [List.length_drop]
    omega

lemma goLastIndex_neg (s sub : GoStr) (h : ∀ i, sub.isPrefixOf (s.drop i) = false) :
    goLastIndex s sub = -1 :=
  lastOccurAux_neg_of s sub s.length (fun j _ => h j)

lemma drop_append_ge (l₁ l₂ : List Char) (n : Nat) :
    (l₁ ++ l₂).drop (l₁.length + n) = l₂.drop n := by
  induction l₁ with
  | nil => simp
  | cons a t ih =>
    simp only [List.cons_append, List.length_cons]
    rw [Nat.add_right_comm, List.drop_succ_cons]
    exact ih

/-- The last `':'` of `pre ++ ':' :: suf` with colon-free `suf` is at `pre.length`. -/
lemma goLastIndex_colon (pre suf : GoStr) (hcol : ':' ∉ suf) :
    goLastIndex (pre ++ ':' :: suf) [':'] = (pre.length : Int) := by
  apply lastOccurAux_eq_of
  · simp
  · rw [List.drop_left]
    exact (isPrefixOf_true_iff _ _).mpr ⟨suf, rfl⟩
  · intro j hj hjk
    by_contra hcon
    have htrue : [':'].isPrefixOf ((pre ++ ':' :: suf).drop j) = true := by
      cases hval : [':'].isPrefixOf ((pre ++ ':' :: suf).drop j)
      · exact absurd hval hcon
      · rfl
    have hpre := (isPrefixOf_true_iff _ _).mp htrue
    have hdrop : (pre ++ ':' :: suf).drop j = suf.drop (j - pre.length - 1) := by
      have hrw : pre ++ ':' :: suf = (pre ++ [':']) ++ suf := by simp
      have hj' : j = (pre ++ [':']).length + (j - pre.length - 1) := by
        simp only [List.length_append, List.length_cons, List.length_nil]
        omega
      rw [hrw]
      nth_rewrite 1 [hj']
      rw [drop_append_ge]
    rw [hdrop] at hpre
    have hmem : ':' ∈ suf.drop (j - pre.length - 1) := hpre.subset (by simp)
    exact hcol ((List.drop_suffix _ _).subset hmem)

lemma goIndex_ne_neg_one (s sub : GoStr) :
    goIndex s sub ≠ -1 ↔ ∃ i, i ≤ s.length ∧ sub.isPrefixOf (s.drop i) = true := by
  constructor
  · intro h
    unfold goIndex at h
    cases hfind : (List.range (s.length + 1)).find? (fun i => sub.isPrefixOf (s.drop i)) with
    | none => rw [hfind] at h; simp at h
    | some i =>
      refine ⟨i, ?_, ?_⟩
      · have := List.mem_range.mp (List.mem_of_find?_eq_some hfind)
        omega
      · have hp := List.find?_some hfind
        simpa using hp
  · rintro ⟨i, hle, hpre⟩
    unfold goIndex
    cases hfind : (List.range (s.length + 1)).find? (fun i => sub.isPrefixOf (s.drop i)) with
    | none =>
      exfalso
      have hnone := List.find?_eq_none.mp hfind i (List.mem_range.mpr (by omega))
      simp only [hpre] at hnone
      exact hnone trivial
    | some j =>
      intro hcon
      simp at hcon

lemma goIndex_ne_of_occurs (a mid b : GoStr) :
    goIndex (a ++ mid ++ b) mid ≠ -1 := by
  rw [goIndex_ne_neg_one]
  refine ⟨a.length, ?_, ?_⟩
  · simp
  · have : (a ++ mid ++ b).drop a.length = mid ++ b := by
      rw [List.append_assoc, List.drop_left]
    rw [this]
    exact (isPrefixOf_true_iff _ _).mpr ⟨b, rfl⟩

end StrLemmas

/-! ## Data model (`pkg/api/operation`, sidetree-go `pkg/api/operation` and
`pkg/api/protocol` as consumed by the handler) -/

/-- Opaque document contents (`rm.Doc`); the handler never inspects it. -/
abbrev Doc := Nat

/-- Opaque anchor-origin value (Go `interface{}`, possibly `nil`). -/
abbrev AnchorOriginVal := Option Nat

/-- Opaque operation property (passthrough). -/
abbrev Property := Nat

/-- Operation type constants of sidetree-go `pkg/api/operation`
(`Type` is a Go string type). -/
def TypeCreate : GoStr := gs "create"

/-- Operation type constant `"update"`. -/
def TypeUpdate : GoStr := gs "update"

/-- Operation type constant `"recover"`. -/
def TypeRecover : GoStr := gs "recover"

/-- Operation type constant `"deactivate"`. -/
def TypeDeactivate : GoStr := gs "deactivate"

/-- Parsed operation (sidetree-go `operation.Operation` as used by the
handler).  `nspace` models the Go field `Namespace` (`namespace` is a Lean
keyword). -/
structure Operation where
  type : GoStr
  uniqueSuffix : GoStr
  nspace : GoStr
  operationRequest : Bytes
  anchorOrigin : AnchorOriginVal
  properties : List Property
deriving DecidableEq, Repr

/-- Record staged in the unpublished-operation store (sidetree-go
`operation.AnchoredOperation`, the fields set by `getUnpublishedOperation`). -/
structure AnchoredOperation where
  type : GoStr
  uniqueSuffix : GoStr
  operationRequest : Bytes
  transactionTime : Nat
  protocolVersion : Nat
  anchorOrigin : AnchorOriginVal
deriving DecidableEq, Repr

/-- `operation.QueuedOperation` of `pkg/api/operation` (src/unnamed/part_000). -/
structure QueuedOperation where
  type : GoStr
  operationRequest : Bytes
  uniqueSuffix : GoStr
  nspace : GoStr
  anchorOrigin : AnchorOriginVal
  properties : List Property
deriving DecidableEq, Repr

/-- `protocol.ResolutionModel` restricted to the fields the handler reads:
`Doc`, `PublishedOperations` (only its length is used), `Deactivated`,
`AnchorOrigin`.  Published operations are opaque to this core. -/
structure ResolutionModel where
  doc : Doc
  publishedOperations : List Nat
  deactivated : Bool
  anchorOrigin : AnchorOriginVal
deriving DecidableEq, Repr

/-- Externally transformed resolution result; opaque to the handler (it is
produced and consumed only by the version's document transformer).  It carries
an opaque payload so that test transformers can be told apart. -/
structure ResolutionResult where
  payload : GoStr
deriving DecidableEq, Repr

/-- Modelled from the spec (§6, "Transformation-info record"): the metadata
bundle built by sidetree-go's `docutil.GetTransformationInfoForUnpublished` /
`GetTransformationInfoForPublished` (those constructors live outside this
repository; the spec gives their field lists). -/
inductive TransformationInfo where
  | unpublished (nspace domain labelOrHint uniqueSuffix createRequestJCS : GoStr)
  | published (nspace shortFormDid uniqueSuffix : GoStr) (rm : ResolutionModel)
deriving DecidableEq, Repr

/-- A protocol version: genesis time plus the version's pure collaborators
(operation parser, DID parser, document validator, create-result
computation, canonicalizer and document transformer), modelled as oracle
functions. -/
structure ProtocolVersion where
  genesisTime : Nat
  parse : GoStr → Bytes → Except Err Operation
  parseDID : GoStr → GoStr → Except Err (GoStr × Option Bytes)
  isValidPayload : Bytes → Except Err Unit
  isValidOriginalDocument : Bytes → Except Err Unit
  getCreateResult : Operation → Except Err ResolutionModel
  marshalCanonical : Doc → Except Err Bytes
  transformDocument : ResolutionModel → TransformationInfo → Except Err ResolutionResult

/-- Configuration of the document handler (`DocumentHandler` struct fields
set at construction).  `nspace` models the Go field `namespace`. -/
structure DocumentHandler where
  nspace : GoStr
  aliases : List GoStr
  domain : GoStr
  label : GoStr
  unpublishedOperationTypes : List GoStr

/-- The handler's injected collaborators: protocol client, operation
decorator, operation processor, unpublished-operation store and batch
writer.  The store state has type `σ` and the batch-writer state type `ω`;
`now` models `time.Now().Unix()` at the staging step. -/
structure Env (σ ω : Type) where
  protocolGet : Nat → Except Err ProtocolVersion
  protocolCurrent : Except Err ProtocolVersion
  processorResolve : GoStr → Except Err ResolutionModel
  decorate : Operation → Except Err Operation
  storePut : AnchoredOperation → σ → Except Err σ
  storeDelete : AnchoredOperation → σ → Except Err σ
  writerAdd : QueuedOperation → Nat → ω → Except Err ω
  now : Nat

/-- Outcome of `ProcessOperation`: the returned value (or error) together
with the final store and batch-writer states. -/
structure ProcOut (σ ω : Type) where
  res : Except Err (Option ResolutionResult)
  store : σ
  writer : ω

/-! ## Handler functions (`pkg/dochandler/handler.go`) -/

/-- `fmt.Errorf("%s: %s", badRequest, msg)` with `badRequest = "bad request"`. -/
def badRequestErr (e : Err) : Err := gs "bad request: " ++ e

/-- The namespace delimiter `docutil.NamespaceDelimiter` (the string `":"`). -/
def nsDelim : GoStr := [':']

/-- `defaultOperationDecorator.Decorate` (handler.go line 510): for
non-create operations, resolve the prior state, refuse deactivated
documents, and copy `AnchorOrigin` from the resolved state for update and
deactivate. -/
def defaultDecorate (resolve : GoStr → Except Err ResolutionModel) (op : Operation) :
    Except Err Operation :=
  if op.type ≠ TypeCreate then
    match resolve op.uniqueSuffix with
    | .error e => .error e
    | .ok internalResult =>
      if internalResult.deactivated then
        .error (gs "document has been deactivated, no further operations are allowed")
      else if op.type = TypeUpdate ∨ op.type = TypeDeactivate then
        .ok { op with anchorOrigin := internalResult.anchorOrigin }
      else
        .ok op
  else
    .ok op

/-- `contains` helper of handler.go (membership in the configured
unpublished-operation-type list). -/
def containsType (values : List GoStr) (v : GoStr) : Bool := values.contains v

/-- `getUnpublishedOperation` (handler.go line 236): build the
`AnchoredOperation` to stage, or `none` when the operation's type is not
among the configured unpublished types. -/
def getUnpublishedOperation (r : DocumentHandler) (now : Nat) (op : Operation)
    (pv : ProtocolVersion) : Option AnchoredOperation :=
  if containsType r.unpublishedOperationTypes op.type then
    some { type := op.type, uniqueSuffix := op.uniqueSuffix,
           operationRequest := op.operationRequest, transactionTime := now,
           protocolVersion := pv.genesisTime, anchorOrigin := op.anchorOrigin }
  else
    none

/-- `addOperationToUnpublishedOpsStore` (handler.go line 251). -/
def addOperationToUnpublishedOpsStore {σ ω : Type} (env : Env σ ω)
    (unpublishedOp : Option AnchoredOperation) (s : σ) : Except Err σ :=
  match unpublishedOp with
  | none => .ok s
  | some op => env.storePut op s

/-- `deleteOperationFromUnpublishedOpsStore` (handler.go line 260): best
effort; a `Delete` failure is only logged (the store state is modelled as
unchanged in that case) and never escalates. -/
def deleteOperationFromUnpublishedOpsStore {σ ω : Type} (env : Env σ ω)
    (unpublishedOp : Option AnchoredOperation) (s : σ) : σ :=
  match unpublishedOp with
  | none => s
  | some op =>
    match env.storeDelete op s with
    | .ok s2 => s2
    | .error _ => s

/-- `addToBatch` (handler.go line 443): the `QueuedOperation` handed to the
batch writer; its `Namespace` field is the handler's configured namespace. -/
def toQueuedOperation (r : DocumentHandler) (op : Operation) : QueuedOperation :=
  { type := op.type, nspace := r.nspace, uniqueSuffix := op.uniqueSuffix,
    operationRequest := op.operationRequest, anchorOrigin := op.anchorOrigin,
    properties := op.properties }

/-- `validateCreateDocument` (handler.go line 463). -/
def validateCreateDocument (op : Operation) (pv : ProtocolVersion) : Except Err Unit :=
  match pv.getCreateResult op with
  | .error e => .error e
  | .ok rm =>
    match pv.marshalCanonical rm.doc with
    | .error e => .error e
    | .ok docBytes => pv.isValidOriginalDocument docBytes

/-- `validateOperation` (handler.go line 455). -/
def validateOperation (op : Operation) (pv : ProtocolVersion) : Except Err Unit :=
  if op.type = TypeCreate then validateCreateDocument op pv
  else pv.isValidPayload op.operationRequest

/-- `getCreateResponse` (handler.go line 282). -/
def getCreateResponse (r : DocumentHandler) (op : Operation) (pv : ProtocolVersion) :
    Except Err ResolutionResult :=
  match pv.getCreateResult op with
  | .error e => .error e
  | .ok rm =>
    pv.transformDocument rm
      (.unpublished r.nspace r.domain r.label op.uniqueSuffix [])

/-- `ProcessOperation` (handler.go line 158): version lookup, parse,
validate, decorate, stage in the unpublished store, enqueue to the batch
writer (compensating delete on failure), and create response. -/
def ProcessOperation {σ ω : Type} (r : DocumentHandler) (env : Env σ ω) (s : σ) (w : ω)
    (operationBuffer : Bytes) (protocolVersion : Nat) : ProcOut σ ω :=
  match env.protocolGet protocolVersion with
  | .error e => ⟨.error e, s, w⟩
  | .ok pv =>
    match pv.parse r.nspace operationBuffer with
    | .error e => ⟨.error (badRequestErr e), s, w⟩
    | .ok op₀ =>
      match validateOperation op₀ pv with
      | .error e => ⟨.error (badRequestErr e), s, w⟩
      | .ok _ =>
        match env.decorate op₀ with
        | .error e => ⟨.error (badRequestErr e), s, w⟩
        | .ok op =>
          let unpublishedOp := getUnpublishedOperation r env.now op pv
          match addOperationToUnpublishedOpsStore env unpublishedOp s with
          | .error e =>
            ⟨.error (gs "failed to add operation for suffix[" ++ op.uniqueSuffix ++
                     gs "] to unpublished operation store: " ++ e), s, w⟩
          | .ok s1 =>
            match env.writerAdd (toQueuedOperation r op) pv.genesisTime w with
            | .error e =>
              ⟨.error e, deleteOperationFromUnpublishedOpsStore env unpublishedOp s1, w⟩
            | .ok w1 =>
              if op.type = TypeCreate then
                match getCreateResponse r op pv with
                | .error e => ⟨.error e, s1, w1⟩
                | .ok res => ⟨.ok (some res), s1, w1⟩
              else
                ⟨.ok none, s1, w1⟩

/-- First alias whose `alias + ":"` is a prefix of the input (aliases are
tried in configured order). -/
def findAliasNs (did : GoStr) : List GoStr → Option GoStr
  | [] => none
  | ns :: rest => if goHasPre did (ns ++ nsDelim) then some ns else findAliasNs did rest

/-- `getNamespace` (handler.go line 347): aliases first, then the primary
namespace; otherwise an error listing the configured names. -/
def getNamespace (r : DocumentHandler) (shortOrLongFormDID : GoStr) : Except Err GoStr :=
  match findAliasNs shortOrLongFormDID r.aliases with
  | some ns => .ok ns
  | none =>
    if goHasPre shortOrLongFormDID (r.nspace ++ nsDelim) then .ok r.nspace
    else
      .error (gs "did must start with configured namespace[" ++ r.nspace ++
              gs "] or aliases" ++ goFmtStrSlice r.aliases)

/-- `GetHint` (handler.go line 389). -/
def GetHint (id nspace suffix : GoStr) : Except Err GoStr :=
  let posSuffix := goLastIndex id suffix
  if posSuffix = -1 then
    .error (gs "invalid ID [" ++ id ++ gs "]")
  else if (nspace.length : Int) + 1 > posSuffix - 1 then
    .ok []
  else
    .ok (goSlice id (nspace.length + 1) (posSuffix - 1).toNat)

/-- `getSuffix` (handler.go line 478): the portion of the identifier after
the last namespace delimiter. -/
def getSuffix (nspace idOrDocument : GoStr) : Except Err GoStr :=
  let ns := nspace ++ nsDelim
  if goIndex idOrDocument ns = -1 then
    .error (gs "did must start with configured namespace")
  else
    let lastDelimiter := goLastIndex idOrDocument nsDelim
    let adjustedPos := lastDelimiter + 1
    if adjustedPos ≥ (idOrDocument.length : Int) then
      .error (gs "did suffix is empty")
    else
      .ok (idOrDocument.drop adjustedPos.toNat)

/-- `resolveRequestWithID` (handler.go line 363): processor resolve, then
unpublished (hint-carrying) or published transformation info, then
transform. -/
def resolveRequestWithID {σ ω : Type} (r : DocumentHandler) (env : Env σ ω)
    (shortFormDid uniquePortion : GoStr) (pv : ProtocolVersion) :
    Except Err ResolutionResult :=
  match env.processorResolve uniquePortion with
  | .error e => .error e
  | .ok internalResult =>
    if internalResult.publishedOperations.length = 0 then
      match GetHint shortFormDid r.nspace uniquePortion with
      | .error e => .error e
      | .ok hint =>
        pv.transformDocument internalResult
          (.unpublished r.nspace r.domain hint uniquePortion [])
    else
      pv.transformDocument internalResult
        (.published r.nspace shortFormDid uniquePortion internalResult)

/-- `resolveRequestWithInitialState` (handler.go line 404): long-form
fallback; parse the initial state, require the suffix to match, compose,
canonicalize, validate, then transform with the create-request JCS. -/
def resolveRequestWithInitialState (r : DocumentHandler) (uniqueSuffix longFormDID : GoStr)
    (initialBytes : Bytes) (pv : ProtocolVersion) : Except Err ResolutionResult :=
  match pv.parse r.nspace initialBytes with
  | .error e => .error (badRequestErr e)
  | .ok op =>
    if uniqueSuffix ≠ op.uniqueSuffix then
      .error (gs "bad request: provided did doesn't match did created from initial state")
    else
      match pv.getCreateResult op with
      | .error e => .error e
      | .ok rm =>
        match pv.marshalCanonical rm.doc with
        | .error e => .error e
        | .ok docBytes =>
          match pv.isValidOriginalDocument docBytes with
          | .error e => .error (gs "bad request: validate initial document: " ++ e)
          | .ok _ =>
            let createRequestJCS :=
              longFormDID.drop ((goLastIndex longFormDID nsDelim) + 1).toNat
            match pv.transformDocument rm
                (.unpublished r.nspace r.domain r.label uniqueSuffix createRequestJCS) with
            | .error e =>
              .error (gs "failed to transform create with initial state to external document: "
                      ++ e)
            | .ok externalResult => .ok externalResult

/-- `ResolveDocument` (handler.go line 310): namespace match, current
version, DID parse, suffix extraction, primary resolve, and the long-form
fallback on a "not found" failure with initial state present. -/
def ResolveDocument {σ ω : Type} (r : DocumentHandler) (env : Env σ ω)
    (shortOrLongFormDID : GoStr) : Except Err ResolutionResult :=
  match getNamespace r shortOrLongFormDID with
  | .error e => .error (badRequestErr e)
  | .ok ns =>
    match env.protocolCurrent with
    | .error e => .error e
    | .ok pv =>
      match pv.parseDID ns shortOrLongFormDID with
      | .error e => .error (badRequestErr e)
      | .ok (shortFormDID, createReq) =>
        match getSuffix ns shortFormDID with
        | .error e => .error (badRequestErr e)
        | .ok uniquePortion =>
          match resolveRequestWithID r env shortFormDID uniquePortion pv with
          | .ok doc => .ok doc
          | .error e =>
            match createReq with
            | some initialBytes =>
              if goContains e (gs "not found") then
                resolveRequestWithInitialState r uniquePortion shortOrLongFormDID
                  initialBytes pv
              else .error e
            | none => .error e

/-! ## Spec-modelled unpublished-operation store

The durable store implementations are not part of this repository (`src/`
holds only the no-op store); §4.4 of the spec gives their contract. -/

/-- Store state: association list keyed by unique suffix. -/
abbrev MapStore := List (GoStr × AnchoredOperation)

/-- Modelled from the spec (§4.4): `Put` overwrites any entry with the same
`unique_suffix`. -/
def mapStorePut (op : AnchoredOperation) (s : MapStore) : MapStore :=
  (op.uniqueSuffix, op) :: s.filter (fun e => e.1 ≠ op.uniqueSuffix)

/-- Modelled from the spec (§4.4): `Delete` removes the entry keyed by the
operation's `unique_suffix`; deleting a missing entry is not an error. -/
def mapStoreDelete (op : AnchoredOperation) (s : MapStore) : MapStore :=
  s.filter (fun e => e.1 ≠ op.uniqueSuffix)

/-- Lookup by unique suffix in the spec-modelled store. -/
def mapStoreLookup (s : MapStore) (k : GoStr) : Option AnchoredOperation :=
  (s.find? (fun e => e.1 = k)).map Prod.snd

lemma mapStoreLookup_delete (op : AnchoredOperation) (s : MapStore) :
    mapStoreLookup (mapStoreDelete op s) op.uniqueSuffix = none := by
  unfold mapStoreLookup mapStoreDelete
  have hfind : (List.filter (fun e => decide (e.1 ≠ op.uniqueSuffix)) s).find?
      (fun e => decide (e.1 = op.uniqueSuffix)) = none := by
    rw [List.find?_eq_none]
    intro x hx
    have hmem := List.mem_filter.mp hx
    have hne := hmem.2
    simp only [decide_eq_true_eq] at hne ⊢
    exact hne
  rw [hfind]
  rfl

/-! ## Claim theorems -/

lemma defaultDecorate_ok_resolve (resolve : GoStr → Except Err ResolutionModel)
    (op : Operation) (rm : ResolutionModel) (hc : op.type ≠ TypeCreate)
    (hres : resolve op.uniqueSuffix = .ok rm) :
    defaultDecorate resolve op =
      if rm.deactivated = true then
        .error (gs "document has been deactivated, no further operations are allowed")
      else if op.type = TypeUpdate ∨ op.type = TypeDeactivate then
        .ok { op with anchorOrigin := rm.anchorOrigin }
      else
        .ok op := by
  unfold defaultDecorate
  rw [if_pos hc, hres]

/-- Claim C5: `Decorate` modifies no field of the operation other than
`anchor_origin`: a create operation is returned entirely unchanged; for
update and deactivate only `anchor_origin` is overwritten with the resolved
prior state's `anchor_origin`; for recover `anchor_origin` is left as
parsed; in all cases `type`, `unique_suffix`, `namespace`,
`operation_request` and `properties` are identical to the input. -/
theorem C5_decorate_frame (resolve : GoStr → Except Err ResolutionModel)
    (op op' : Operation) (h : defaultDecorate resolve op = .ok op') :
    op'.type = op.type ∧ op'.uniqueSuffix = op.uniqueSuffix ∧ op'.nspace = op.nspace
    ∧ op'.operationRequest = op.operationRequest ∧ op'.properties = op.properties
    ∧ (op.type = TypeCreate → op' = op)
    ∧ (op.type = TypeRecover → op'.anchorOrigin = op.anchorOrigin)
    ∧ ((op.type = TypeUpdate ∨ op.type = TypeDeactivate) →
        ∃ rm, resolve op.uniqueSuffix = .ok rm ∧ op'.anchorOrigin = rm.anchorOrigin) := by
  by_cases hc : op.type = TypeCreate
  · have hcreate : defaultDecorate resolve op = .ok op := by
      unfold defaultDecorate
      rw [if_neg (fun hn => hn hc)]
    rw [hcreate] at h
    have hop : op = op' := by injection h
    subst hop
    refine ⟨rfl, rfl, rfl, rfl, rfl, fun _ => rfl, fun _ => rfl, fun hud => ?_⟩
    exfalso
    rcases hud with hu | hd
    · rw [hc] at hu; exact absurd hu (by decide)
    · rw [hc] at hd; exact absurd hd (by decide)
  · cases hres : resolve op.uniqueSuffix with
    | error e =>
      have herr : defaultDecorate resolve op = .error e := by
        unfold defaultDecorate
        rw [if_pos hc, hres]
      rw [herr] at h
      cases h
    | ok rm =>
      rw [defaultDecorate_ok_resolve resolve op rm hc hres] at h
      by_cases hdeact : rm.deactivated = true
      · rw [if_pos hdeact] at h; cases h
      · rw [if_neg hdeact] at h
        by_cases hud : op.type = TypeUpdate ∨ op.type = TypeDeactivate
        · rw [if_pos hud] at h
          have hop : { op with anchorOrigin := rm.anchorOrigin } = op' := by injection h
          subst hop
          refine ⟨rfl, rfl, rfl, rfl, rfl, fun hcr => absurd hcr hc, fun hr => ?_,
                  fun _ => ⟨rm, rfl, rfl⟩⟩
          exfalso
          rcases hud with hu | hd
          · rw [hr] at hu; exact absurd hu (by decide)
          · rw [hr] at hd; exact absurd hd (by decide)
        · rw [if_neg hud] at h
          have hop : op = op' := by injection h
          subst hop
          exact ⟨rfl, rfl, rfl, rfl, rfl, fun _ => rfl, fun _ => rfl,
                 fun hcon => absurd hcon hud⟩

/-- A parsed update operation used by the concrete witnesses. -/
def opUpd : Operation :=
  { type := TypeUpdate, uniqueSuffix := gs "SUF", nspace := gs "did:ex",
    operationRequest := [1, 2], anchorOrigin := some 5, properties := [3] }

/-- A live (not deactivated) resolution model used by the concrete witnesses. -/
def rmLive : ResolutionModel :=
  { doc := 0, publishedOperations := [], deactivated := false, anchorOrigin := some 9 }

/-- A deactivated resolution model used by the concrete witnesses. -/
def rmDeact : ResolutionModel :=
  { doc := 0, publishedOperations := [], deactivated := true, anchorOrigin := some 9 }

/-- Witness for C5 at a concrete update operation and prior state. -/
theorem C5_decorate_frame_witness :
    ({ opUpd with anchorOrigin := some 9 } : Operation).type = opUpd.type
    ∧ ({ opUpd with anchorOrigin := some 9 } : Operation).uniqueSuffix = opUpd.uniqueSuffix
    ∧ ({ opUpd with anchorOrigin := some 9 } : Operation).nspace = opUpd.nspace
    ∧ ({ opUpd with anchorOrigin := some 9 } : Operation).operationRequest = opUpd.operationRequest
    ∧ ({ opUpd with anchorOrigin := some 9 } : Operation).properties = opUpd.properties
    ∧ (opUpd.type = TypeCreate → { opUpd with anchorOrigin := some 9 } = opUpd)
    ∧ (opUpd.type = TypeRecover →
        ({ opUpd with anchorOrigin := some 9 } : Operation).anchorOrigin = opUpd.anchorOrigin)
    ∧ ((opUpd.type = TypeUpdate ∨ opUpd.type = TypeDeactivate) →
        ∃ rm, (fun (_ : GoStr) => (.ok rmLive : Except Err ResolutionModel)) opUpd.uniqueSuffix
              = .ok rm
          ∧ ({ opUpd with anchorOrigin := some 9 } : Operation).anchorOrigin = rm.anchorOrigin) :=
  C5_decorate_frame (fun _ => .ok rmLive) opUpd { opUpd with anchorOrigin := some 9 } rfl

/-- Claim C6: `GetHint` is inverse to `ns + ":" + hint + ":" + suffix` for a
non-empty colon-free hint; for the empty hint `GetHint (ns + ":" + suffix)`
returns the empty string; and when the suffix does not occur in the id at
all `GetHint` fails with an "invalid ID" error. -/
theorem C6_get_hint_inverse (ns s h : GoStr) (hs : s ≠ []) (_hcol : ':' ∉ h) :
    (h ≠ [] → GetHint (ns ++ ':' :: h ++ ':' :: s) ns s = .ok h)
    ∧ GetHint (ns ++ ':' :: s) ns s = .ok []
    ∧ (∀ id, (∀ i, s.isPrefixOf (id.drop i) = false) →
        GetHint id ns s = .error (gs "invalid ID [" ++ id ++ gs "]")) := by
  refine ⟨fun _ => ?_, ?_, fun id hocc => ?_⟩
  · have hpos : goLastIndex (ns ++ ':' :: h ++ ':' :: s) s
        = ((ns.length + h.length + 2 : Nat) : Int) := by
      have hrw : ns ++ ':' :: h ++ ':' :: s = (ns ++ ':' :: h ++ [':']) ++ s := by simp
      rw [hrw, goLastIndex_append _ s hs]
      simp only [List.length_append, List.length_cons, List.length_nil]
      push_cast
      ring
    simp only [GetHint]
    rw [hpos, if_neg (by omega), if_neg (by push_cast; omega)]
    have htn : (((ns.length + h.length + 2 : Nat) : Int) - 1).toNat
        = ns.length + h.length + 1 := by omega
    rw [htn]
    unfold goSlice
    have hsub : ns.length + h.length + 1 - (ns.length + 1) = h.length := by omega
    rw [hsub]
    have hdrop : (ns ++ ':' :: h ++ ':' :: s).drop (ns.length + 1) = h ++ ':' :: s := by
      have hrw : ns ++ ':' :: h ++ ':' :: s = (ns ++ [':']) ++ (h ++ ':' :: s) := by simp
      rw [hrw]
      exact List.drop_left' (by simp)
    rw [hdrop]
    rw [show h ++ ':' :: s = h ++ (':' :: s) from rfl]
    rw [List.take_left' rfl]
  · have hpos : goLastIndex (ns ++ ':' :: s) s = ((ns.length + 1 : Nat) : Int) := by
      have hrw : ns ++ ':' :: s = (ns ++ [':']) ++ s := by simp
      rw [hrw, goLastIndex_append _ s hs]
      simp
    simp only [GetHint]
    rw [hpos, if_neg (by omega), if_pos (by push_cast; omega)]
  · have hpos : goLastIndex id s = -1 := goLastIndex_neg id s hocc
    simp only [GetHint]
    rw [hpos, if_pos rfl]

/-- Witness for C6 at `ns = "did:example"`, `hint = "hint1"`, `suffix = "SUF"`. -/
theorem C6_get_hint_inverse_witness :
    ((gs "hint1" ≠ [] →
        GetHint (gs "did:example" ++ ':' :: gs "hint1" ++ ':' :: gs "SUF")
          (gs "did:example") (gs "SUF") = .ok (gs "hint1"))
     ∧ GetHint (gs "did:example" ++ ':' :: gs "SUF") (gs "did:example") (gs "SUF") = .ok []
     ∧ (∀ id, (∀ i, (gs "SUF").isPrefixOf (id.drop i) = false) →
         GetHint id (gs "did:example") (gs "SUF")
           = .error (gs "invalid ID [" ++ id ++ gs "]"))) :=
  C6_get_hint_inverse (gs "did:example") (gs "SUF") (gs "hint1") (by decide) (by decide)

/-- Claim C7: in the long-form fallback, a mismatch between the suffix of
the operation parsed from the initial-state bytes and the suffix extracted
from the identifier fails with the "bad request: provided did doesn't match
did created from initial state" error.  The protocol version `pv` (hence its
composer, validator and transformer) is universally quantified, so the
result does not depend on them: no composition, validation or
transformation takes place. -/
theorem C7_initial_state_suffix_mismatch (r : DocumentHandler) (pv : ProtocolVersion)
    (uniqueSuffix longFormDID : GoStr) (initialBytes : Bytes) (op : Operation)
    (hparse : pv.parse r.nspace initialBytes = .ok op)
    (hne : uniqueSuffix ≠ op.uniqueSuffix) :
    resolveRequestWithInitialState r uniqueSuffix longFormDID initialBytes pv
      = .error (gs "bad request: provided did doesn't match did created from initial state") := by
  simp only [resolveRequestWithInitialState, hparse]
  rw [if_pos hne]

/-- Witness for C7 at a concrete mismatching suffix. -/
theorem C7_initial_state_suffix_mismatch_witness :
    resolveRequestWithInitialState
        ⟨gs "did:ex", [], [], [], []⟩ (gs "OTHER") (gs "did:ex:OTHER") [9]
        { genesisTime := 7, parse := fun _ _ => .ok opUpd,
          parseDID := fun _ d => .ok (d, none),
          isValidPayload := fun _ => .ok (), isValidOriginalDocument := fun _ => .ok (),
          getCreateResult := fun _ => .error (gs "e"), marshalCanonical := fun _ => .ok [],
          transformDocument := fun _ _ => .ok ⟨gs "doc"⟩ }
      = .error (gs "bad request: provided did doesn't match did created from initial state") :=
  C7_initial_state_suffix_mismatch _ _ _ _ _ opUpd rfl (by decide)

/-- Claim C2: an update, recover or deactivate operation whose suffix
resolves to a deactivated state is refused by the default decorator with
the "document has been deactivated, no further operations are allowed"
error; `ProcessOperation` then returns that message as a bad-request error
with the store and the batch-writer state untouched; and the default
decorator never runs the prior-state check on a create operation. -/
theorem C2_deactivated_is_terminal {σ ω : Type} (r : DocumentHandler) (env : Env σ ω)
    (s : σ) (w : ω) (buf : Bytes) (v : Nat) (pv : ProtocolVersion) (op : Operation)
    (rm : ResolutionModel)
    (hdec : env.decorate = defaultDecorate env.processorResolve)
    (hget : env.protocolGet v = .ok pv)
    (hparse : pv.parse r.nspace buf = .ok op)
    (hvalid : validateOperation op pv = .ok ())
    (htype : op.type = TypeUpdate ∨ op.type = TypeRecover ∨ op.type = TypeDeactivate)
    (hres : env.processorResolve op.uniqueSuffix = .ok rm)
    (hdeact : rm.deactivated = true) :
    defaultDecorate env.processorResolve op =
      .error (gs "document has been deactivated, no further operations are allowed")
    ∧ ProcessOperation r env s w buf v =
        ⟨.error (badRequestErr
          (gs "document has been deactivated, no further operations are allowed")), s, w⟩
    ∧ (∀ (resolve : GoStr → Except Err ResolutionModel) (opc : Operation),
        opc.type = TypeCreate → defaultDecorate resolve opc = .ok opc) := by
  have hc : op.type ≠ TypeCreate := by
    rcases htype with h | h | h <;> rw [h] <;> decide
  have hdef : defaultDecorate env.processorResolve op =
      .error (gs "document has been deactivated, no further operations are allowed") := by
    rw [defaultDecorate_ok_resolve env.processorResolve op rm hc hres, if_pos hdeact]
  refine ⟨hdef, ?_, ?_⟩
  · simp only [ProcessOperation, hget, hparse, hvalid, hdec, hdef]
  · intro resolve opc hcr
    unfold defaultDecorate
    rw [if_neg (fun hn => hn hcr)]

/-- Shared witness fixture: a protocol version whose parser yields `opUpd`. -/
def pvW : ProtocolVersion :=
  { genesisTime := 7, parse := fun _ _ => .ok opUpd,
    parseDID := fun _ d => .ok (d, none),
    isValidPayload := fun _ => .ok (), isValidOriginalDocument := fun _ => .ok (),
    getCreateResult := fun _ => .error (gs "nocreate"), marshalCanonical := fun _ => .ok [],
    transformDocument := fun _ _ => .ok ⟨gs "doc"⟩ }

/-- Shared witness fixture: handler configured to stage update operations. -/
def rW : DocumentHandler :=
  { nspace := gs "did:ex", aliases := [], domain := gs "dom", label := gs "lab",
    unpublishedOperationTypes := [TypeUpdate] }

/-- Witness fixture for C2: environment whose processor reports a
deactivated state. -/
def envC2 : Env Nat Nat :=
  { protocolGet := fun _ => .ok pvW, protocolCurrent := .ok pvW,
    processorResolve := fun _ => .ok rmDeact,
    decorate := defaultDecorate (fun _ => .ok rmDeact),
    storePut := fun _ n => .ok n, storeDelete := fun _ n => .ok n,
    writerAdd := fun _ _ n => .ok n, now := 0 }

/-- Witness for C2 at a concrete update operation on a deactivated document. -/
theorem C2_deactivated_is_terminal_witness :
    defaultDecorate envC2.processorResolve opUpd =
      .error (gs "document has been deactivated, no further operations are allowed")
    ∧ ProcessOperation rW envC2 0 0 [1] 5 =
        ⟨.error (badRequestErr
          (gs "document has been deactivated, no further operations are allowed")), 0, 0⟩
    ∧ (∀ (resolve : GoStr → Except Err ResolutionModel) (opc : Operation),
        opc.type = TypeCreate → defaultDecorate resolve opc = .ok opc) :=
  C2_deactivated_is_terminal rW envC2 0 0 [1] 5 pvW opUpd rmDeact
    rfl rfl rfl rfl (Or.inl rfl) rfl rfl

/-- Claim C1: when the unpublished store's `Put` succeeded and the batch
writer's `Add` then fails, `ProcessOperation` returns the batch writer's
error with the batch-writer state untouched, and performs the compensating
`Delete`: under the spec-modelled keyed store the suffix is no longer
present afterwards, and a `Delete` failure leaves the state as after `Put`
without changing the returned error. -/
theorem C1_batch_failure_compensation {ω : Type} (r : DocumentHandler)
    (env : Env MapStore ω) (s : MapStore) (w : ω) (buf : Bytes) (v : Nat)
    (pv : ProtocolVersion) (op₀ op : Operation) (uop : AnchoredOperation)
    (s1 : MapStore) (e : Err)
    (hget : env.protocolGet v = .ok pv)
    (hparse : pv.parse r.nspace buf = .ok op₀)
    (hvalid : validateOperation op₀ pv = .ok ())
    (hdec : env.decorate op₀ = .ok op)
    (hunpub : getUnpublishedOperation r env.now op pv = some uop)
    (hput : env.storePut uop s = .ok s1)
    (hadd : env.writerAdd (toQueuedOperation r op) pv.genesisTime w = .error e) :
    (ProcessOperation r env s w buf v).res = .error e
    ∧ (ProcessOperation r env s w buf v).writer = w
    ∧ (env.storeDelete uop s1 = .ok (mapStoreDelete uop s1) →
        mapStoreLookup (ProcessOperation r env s w buf v).store op.uniqueSuffix = none)
    ∧ (∀ d, env.storeDelete uop s1 = .error d →
        (ProcessOperation r env s w buf v).store = s1
        ∧ (ProcessOperation r env s w buf v).res = .error e) := by
  have hsfx : uop.uniqueSuffix = op.uniqueSuffix := by
    unfold getUnpublishedOperation at hunpub
    by_cases hc : containsType r.unpublishedOperationTypes op.type = true
    · rw [if_pos hc] at hunpub
      cases hunpub
      rfl
    · rw [if_neg hc] at hunpub
      cases hunpub
  have hmain : ProcessOperation r env s w buf v =
      ⟨.error e, deleteOperationFromUnpublishedOpsStore env (some uop) s1, w⟩ := by
    simp only [ProcessOperation, hget, hparse, hvalid, hdec, hunpub,
               addOperationToUnpublishedOpsStore, hput, hadd]
  refine ⟨by rw [hmain], by rw [hmain], fun hdel => ?_, fun d hdel => ?_⟩
  · rw [hmain]
    simp only [deleteOperationFromUnpublishedOpsStore, hdel]
    rw [← hsfx]
    exact mapStoreLookup_delete uop s1
  · rw [hmain]
    simp only [deleteOperationFromUnpublishedOpsStore, hdel]
    constructor <;> trivial

/-- The `AnchoredOperation` staged for `opUpd` by the witness fixtures. -/
def uopW : AnchoredOperation :=
  { type := TypeUpdate, uniqueSuffix := gs "SUF", operationRequest := [1, 2],
    transactionTime := 11, protocolVersion := 7, anchorOrigin := some 5 }

/-- Witness fixture for C1: spec-modelled keyed store, failing batch writer. -/
def envC1 : Env MapStore Nat :=
  { protocolGet := fun _ => .ok pvW, protocolCurrent := .ok pvW,
    processorResolve := fun _ => .ok rmLive,
    decorate := fun o => .ok o,
    storePut := fun o t => .ok (mapStorePut o t),
    storeDelete := fun o t => .ok (mapStoreDelete o t),
    writerAdd := fun _ _ _ => .error (gs "batch writer failed"), now := 11 }

/-- Witness for C1 at a concrete staged update operation. -/
theorem C1_batch_failure_compensation_witness :
    (ProcessOperation rW envC1 [] 0 [1] 5).res = .error (gs "batch writer failed")
    ∧ (ProcessOperation rW envC1 [] 0 [1] 5).writer = 0
    ∧ (envC1.storeDelete uopW (mapStorePut uopW []) =
          .ok (mapStoreDelete uopW (mapStorePut uopW [])) →
        mapStoreLookup (ProcessOperation rW envC1 [] 0 [1] 5).store opUpd.uniqueSuffix = none)
    ∧ (∀ d, envC1.storeDelete uopW (mapStorePut uopW []) = .error d →
        (ProcessOperation rW envC1 [] 0 [1] 5).store = mapStorePut uopW []
        ∧ (ProcessOperation rW envC1 [] 0 [1] 5).res = .error (gs "batch writer failed")) :=
  C1_batch_failure_compensation rW envC1 [] 0 [1] 5 pvW opUpd opUpd uopW
    (mapStorePut uopW []) (gs "batch writer failed") rfl rfl rfl rfl rfl rfl rfl

/-- Claim C10: the `QueuedOperation` handed to the batch writer carries the
handler's configured namespace (never the parsed operation's own namespace
field), copies `Type`, `UniqueSuffix`, `OperationRequest`, `AnchorOrigin`
and `Properties` from the decorated operation, and is enqueued with the
chosen protocol version's genesis time.  The batch writer records what it
receives, so the final writer state exhibits the exact call. -/
theorem C10_queued_operation_fields {σ : Type} (r : DocumentHandler)
    (env : Env σ (List (QueuedOperation × Nat))) (s : σ)
    (w : List (QueuedOperation × Nat)) (buf : Bytes) (v : Nat)
    (pv : ProtocolVersion) (op₀ op : Operation) (s1 : σ)
    (hw : env.writerAdd = fun q g l => .ok ((q, g) :: l))
    (hget : env.protocolGet v = .ok pv)
    (hparse : pv.parse r.nspace buf = .ok op₀)
    (hvalid : validateOperation op₀ pv = .ok ())
    (hdec : env.decorate op₀ = .ok op)
    (hstage : addOperationToUnpublishedOpsStore env
        (getUnpublishedOperation r env.now op pv) s = .ok s1) :
    (ProcessOperation r env s w buf v).writer =
      ({ type := op.type, nspace := r.nspace, uniqueSuffix := op.uniqueSuffix,
         operationRequest := op.operationRequest, anchorOrigin := op.anchorOrigin,
         properties := op.properties }, pv.genesisTime) :: w := by
  simp only [ProcessOperation, hget, hparse, hvalid, hdec, hstage, hw, toQueuedOperation]
  split
  · split <;> rfl
  · rfl

/-- Witness fixture for C10: a recording batch writer. -/
def envC10 : Env Nat (List (QueuedOperation × Nat)) :=
  { protocolGet := fun _ => .ok pvW, protocolCurrent := .ok pvW,
    processorResolve := fun _ => .ok rmLive,
    decorate := fun o => .ok o,
    storePut := fun _ n => .ok n, storeDelete := fun _ n => .ok n,
    writerAdd := fun q g l => .ok ((q, g) :: l), now := 11 }

/-- Witness for C10 at a concrete update operation. -/
theorem C10_queued_operation_fields_witness :
    (ProcessOperation rW envC10 0 [] [1] 5).writer =
      ({ type := opUpd.type, nspace := rW.nspace, uniqueSuffix := opUpd.uniqueSuffix,
         operationRequest := opUpd.operationRequest, anchorOrigin := opUpd.anchorOrigin,
         properties := opUpd.properties }, pvW.genesisTime) :: [] :=
  C10_queued_operation_fields rW envC10 0 [] [1] 5 pvW opUpd opUpd 0
    rfl rfl rfl rfl rfl rfl

/-- Claim C3: when the processor's `Resolve` fails, the long-form fallback
runs exactly when the error message contains `"not found"` and the parser
extracted initial-state bytes; in every other failure case the processor's
error is returned to the caller unchanged. -/
theorem C3_not_found_fallback {σ ω : Type} (r : DocumentHandler) (env : Env σ ω)
    (did ns shortFormDID uniquePortion : GoStr) (createReq : Option Bytes)
    (pv : ProtocolVersion) (e : Err)
    (hns : getNamespace r did = .ok ns)
    (hcur : env.protocolCurrent = .ok pv)
    (hparse : pv.parseDID ns did = .ok (shortFormDID, createReq))
    (hsuf : getSuffix ns shortFormDID = .ok uniquePortion)
    (hres : env.processorResolve uniquePortion = .error e) :
    (∀ initialBytes, createReq = some initialBytes →
        goContains e (gs "not found") = true →
        ResolveDocument r env did
          = resolveRequestWithInitialState r uniquePortion did initialBytes pv)
    ∧ ((createReq = none ∨ goContains e (gs "not found") = false) →
        ResolveDocument r env did = .error e) := by
  constructor
  · intro initialBytes hib hcont
    subst hib
    simp only [ResolveDocument, hns, hcur, hparse, hsuf, resolveRequestWithID, hres,
               hcont, if_true]
  · rintro (hnone | hfalse)
    · subst hnone
      simp only [ResolveDocument, hns, hcur, hparse, hsuf, resolveRequestWithID, hres]
    · cases createReq with
      | none =>
        simp only [ResolveDocument, hns, hcur, hparse, hsuf, resolveRequestWithID, hres]
      | some initialBytes =>
        simp only [ResolveDocument, hns, hcur, hparse, hsuf, resolveRequestWithID, hres,
                   hfalse, Bool.false_eq_true, if_false]

/-- Witness fixture for C3: parser that reports long-form initial state,
processor that fails with a "not found" message. -/
def pvC3 : ProtocolVersion := { pvW with parseDID := fun _ d => .ok (d, some [9]) }

/-- Witness fixture for C3. -/
def envC3 : Env Nat Nat :=
  { protocolGet := fun _ => .ok pvC3, protocolCurrent := .ok pvC3,
    processorResolve := fun _ => .error (gs "content not found"),
    decorate := fun o => .ok o,
    storePut := fun _ n => .ok n, storeDelete := fun _ n => .ok n,
    writerAdd := fun _ _ n => .ok n, now := 0 }

/-- Witness for C3 at a concrete long-form resolution with a "not found"
processor failure. -/
theorem C3_not_found_fallback_witness :
    (∀ initialBytes, (some [9] : Option Bytes) = some initialBytes →
        goContains (gs "content not found") (gs "not found") = true →
        ResolveDocument rW envC3 (gs "did:ex:SUF")
          = resolveRequestWithInitialState rW (gs "SUF") (gs "did:ex:SUF") initialBytes pvC3)
    ∧ (((some [9] : Option Bytes) = none
        ∨ goContains (gs "content not found") (gs "not found") = false) →
        ResolveDocument rW envC3 (gs "did:ex:SUF") = .error (gs "content not found")) :=
  C3_not_found_fallback rW envC3 (gs "did:ex:SUF") (gs "did:ex") (gs "did:ex:SUF")
    (gs "SUF") (some [9]) pvC3 (gs "content not found") rfl rfl rfl rfl rfl

/-- Claim C4 (amended): when the resolution model has zero published
operations, the hint placed in the unpublished transformation info is
`GetHint` of `short_form_did` computed with the handler's configured
primary namespace — not with the alias that matched the input identifier. -/
theorem C4_unpublished_hint (σ ω : Type) (r : DocumentHandler) (env : Env σ ω)
    (shortFormDid uniquePortion : GoStr) (pv : ProtocolVersion)
    (rm : ResolutionModel) (hint : GoStr)
    (hres : env.processorResolve uniquePortion = .ok rm)
    (hpub : rm.publishedOperations = [])
    (hhint : GetHint shortFormDid r.nspace uniquePortion = .ok hint) :
    resolveRequestWithID r env shortFormDid uniquePortion pv
      = pv.transformDocument rm
          (.unpublished r.nspace r.domain hint uniquePortion []) := by
  simp only [resolveRequestWithID, hres, hpub, List.length_nil, if_true, hhint]

/-- Extracts the hint field of unpublished transformation info (used by the
observing transformer of the C4 fixtures). -/
def tiHintOf : TransformationInfo → GoStr
  | .unpublished _ _ h _ _ => h
  | .published _ _ _ _ => []

/-- C4 fixture: protocol version whose transformer reports the hint it was
given, and whose DID parser returns its input unchanged as the short form. -/
def pvC4 : ProtocolVersion :=
  { genesisTime := 1, parse := fun _ _ => .error (gs "e"),
    parseDID := fun _ d => .ok (d, none),
    isValidPayload := fun _ => .ok (), isValidOriginalDocument := fun _ => .ok (),
    getCreateResult := fun _ => .error (gs "e"), marshalCanonical := fun _ => .ok [],
    transformDocument := fun _ ti => .ok ⟨tiHintOf ti⟩ }

/-- C4 fixture: primary namespace `did:example` with alias `did:al`. -/
def rC4 : DocumentHandler :=
  { nspace := gs "did:example", aliases := [gs "did:al"], domain := gs "",
    label := gs "", unpublishedOperationTypes := [] }

/-- C4 fixture: processor that resolves with zero published operations. -/
def envC4 : Env Nat Nat :=
  { protocolGet := fun _ => .ok pvC4, protocolCurrent := .ok pvC4,
    processorResolve := fun _ => .ok rmLive,
    decorate := fun o => .ok o,
    storePut := fun _ n => .ok n, storeDelete := fun _ n => .ok n,
    writerAdd := fun _ _ n => .ok n, now := 0 }

/-- Counterexample to C4 as stated: for `did:al:xyz:SUF` the matched
namespace is the alias `did:al`, and stripping that matched namespace and
the trailing suffix per §4.1.4 yields the hint `"xyz"`; but the code
computes the hint with the primary namespace `did:example`, so the
transformation info actually carries the empty hint (surfaced through the
hint-reporting transformer), which differs from `"xyz"`. -/
theorem C4_unpublished_hint_counterexample :
    getNamespace rC4 (gs "did:al:xyz:SUF") = .ok (gs "did:al")
    ∧ GetHint (gs "did:al:xyz:SUF") (gs "did:al") (gs "SUF") = .ok (gs "xyz")
    ∧ ResolveDocument rC4 envC4 (gs "did:al:xyz:SUF") = .ok ⟨[]⟩
    ∧ ([] : GoStr) ≠ gs "xyz" :=
  ⟨rfl, rfl, rfl, by decide⟩

/-- Witness for the amended C4 at the counterexample's own input. -/
theorem C4_unpublished_hint_witness :
    resolveRequestWithID rC4 envC4 (gs "did:al:xyz:SUF") (gs "SUF") pvC4
      = pvC4.transformDocument rmLive
          (.unpublished rC4.nspace rC4.domain [] (gs "SUF") []) :=
  C4_unpublished_hint Nat Nat rC4 envC4 (gs "did:al:xyz:SUF") (gs "SUF") pvC4
    rmLive [] rfl rfl rfl

lemma findAliasNs_mem (did : GoStr) (pre : List GoStr) (ns : GoStr) (post : List GoStr)
    (hnone : ∀ a ∈ pre, goHasPre did (a ++ nsDelim) = false)
    (hmatch : goHasPre did (ns ++ nsDelim) = true) :
    findAliasNs did (pre ++ ns :: post) = some ns := by
  induction pre with
  | nil =>
    simp only [List.nil_append, findAliasNs, hmatch, if_true]
  | cons a t ih =>
    have ha : goHasPre did (a ++ nsDelim) = false := hnone a (by simp)
    simp only [List.cons_append, findAliasNs, ha, Bool.false_eq_true, if_false]
    exact ih (fun x hx => hnone x (List.mem_cons_of_mem a hx))

lemma findAliasNs_none (did : GoStr) (l : List GoStr)
    (h : ∀ a ∈ l, goHasPre did (a ++ nsDelim) = false) :
    findAliasNs did l = none := by
  induction l with
  | nil => rfl
  | cons a t ih =>
    have ha : goHasPre did (a ++ nsDelim) = false := h a (by simp)
    simp only [findAliasNs, ha, Bool.false_eq_true, if_false]
    exact ih (fun x hx => h x (List.mem_cons_of_mem a hx))

/-- Claim C8: namespace matching returns the first configured alias (in
configured order) whose `alias + ":"` is a prefix of the input, then the
primary namespace; when nothing matches, `ResolveDocument` fails with a
bad-request error listing the configured primary namespace and aliases. -/
theorem C8_namespace_matching {σ ω : Type} (r : DocumentHandler) (env : Env σ ω)
    (did : GoStr) :
    (∀ pre ns post, r.aliases = pre ++ ns :: post →
        (∀ a ∈ pre, goHasPre did (a ++ nsDelim) = false) →
        goHasPre did (ns ++ nsDelim) = true →
        getNamespace r did = .ok ns)
    ∧ ((∀ a ∈ r.aliases, goHasPre did (a ++ nsDelim) = false) →
        goHasPre did (r.nspace ++ nsDelim) = true →
        getNamespace r did = .ok r.nspace)
    ∧ ((∀ a ∈ r.aliases, goHasPre did (a ++ nsDelim) = false) →
        goHasPre did (r.nspace ++ nsDelim) = false →
        getNamespace r did
          = .error (gs "did must start with configured namespace[" ++ r.nspace ++
                    gs "] or aliases" ++ goFmtStrSlice r.aliases)
        ∧ ResolveDocument r env did
          = .error (badRequestErr
              (gs "did must start with configured namespace[" ++ r.nspace ++
               gs "] or aliases" ++ goFmtStrSlice r.aliases))) := by
  refine ⟨fun pre ns post hsplit hnone hmatch => ?_, fun hnone hmatch => ?_,
          fun hnone hmatch => ?_⟩
  · unfold getNamespace
    rw [hsplit, findAliasNs_mem did pre ns post hnone hmatch]
  · unfold getNamespace
    rw [findAliasNs_none did r.aliases hnone, if_pos hmatch]
  · have herr : getNamespace r did
        = .error (gs "did must start with configured namespace[" ++ r.nspace ++
                  gs "] or aliases" ++ goFmtStrSlice r.aliases) := by
      unfold getNamespace
      rw [findAliasNs_none did r.aliases hnone]
      simp only [hmatch, Bool.false_eq_true, if_false]
    exact ⟨herr, by simp only [ResolveDocument, herr]⟩

/-- Benign witness environment for the resolution claims. -/
def envW : Env Nat Nat :=
  { protocolGet := fun _ => .ok pvW, protocolCurrent := .ok pvW,
    processorResolve := fun _ => .ok rmLive,
    decorate := fun o => .ok o,
    storePut := fun _ n => .ok n, storeDelete := fun _ n => .ok n,
    writerAdd := fun _ _ n => .ok n, now := 0 }

/-- C8 fixture: two aliases, the second of which matches the witness input. -/
def rC8 : DocumentHandler :=
  { nspace := gs "did:example", aliases := [gs "did:b", gs "did:al"],
    domain := [], label := [], unpublishedOperationTypes := [] }

/-- Witness for C8: the second configured alias is selected for
`did:al:S`, the first (`did:b`) not matching. -/
theorem C8_namespace_matching_witness :
    getNamespace rC8 (gs "did:al:S") = .ok (gs "did:al") :=
  (C8_namespace_matching rC8 envW (gs "did:al:S")).1
    [gs "did:b"] (gs "did:al") [] rfl (by decide) (by decide)

/-- Claim C9: suffix extraction returns the substring after the last `':'`
of the parsed short-form identifier whenever the identifier contains the
matched namespace followed by `':'`; when that substring is empty the call
fails and `ResolveDocument` surfaces a bad-request error. -/
theorem C9_suffix_extraction {σ ω : Type} (r : DocumentHandler) (env : Env σ ω)
    (did0 ns id pre suf : GoStr) (createReq : Option Bytes) (pv : ProtocolVersion)
    (hid : id = pre ++ ':' :: suf) (hcol : ':' ∉ suf)
    (hcont : ∃ a b, id = a ++ (ns ++ nsDelim) ++ b)
    (hns : getNamespace r did0 = .ok ns)
    (hcur : env.protocolCurrent = .ok pv)
    (hparse : pv.parseDID ns did0 = .ok (id, createReq)) :
    (suf ≠ [] → getSuffix ns id = .ok suf)
    ∧ (suf = [] →
        getSuffix ns id = .error (gs "did suffix is empty")
        ∧ ResolveDocument r env did0
            = .error (badRequestErr (gs "did suffix is empty"))) := by
  obtain ⟨a, b, hab⟩ := hcont
  have hcontains : goIndex id (ns ++ nsDelim) ≠ -1 := by
    rw [hab]; exact goIndex_ne_of_occurs a _ b
  have hlast : goLastIndex id nsDelim = (pre.length : Int) := by
    rw [hid]; exact goLastIndex_colon pre suf hcol
  have hlen : id.length = pre.length + 1 + suf.length := by
    rw [hid]
    simp only [List.length_append, List.length_cons]
    omega
  constructor
  · intro hne
    have hslen : 0 < suf.length := List.length_pos.mpr hne
    have hform : getSuffix ns id = .ok (id.drop ((pre.length : Int) + 1).toNat) := by
      simp only [getSuffix]
      rw [if_neg hcontains, hlast, if_neg (by omega)]
    rw [hform]
    have htn : ((pre.length : Int) + 1).toNat = pre.length + 1 := by omega
    rw [htn, hid]
    have hrw : pre ++ ':' :: suf = (pre ++ [':']) ++ suf := by simp
    rw [hrw, List.drop_left' (by simp)]
  · intro hemp
    have h0 : suf.length = 0 := by rw [hemp]; rfl
    have herr : getSuffix ns id = .error (gs "did suffix is empty") := by
      simp only [getSuffix]
      rw [if_neg hcontains, hlast, if_pos (by omega)]
    exact ⟨herr, by simp only [ResolveDocument, hns, hcur, hparse, herr]⟩

/-- Witness for C9 at the empty-suffix identifier `did:ex:`. -/
theorem C9_suffix_extraction_witness :
    ((([] : GoStr) ≠ [] → getSuffix (gs "did:ex") (gs "did:ex:") = .ok [])
     ∧ (([] : GoStr) = [] →
         getSuffix (gs "did:ex") (gs "did:ex:") = .error (gs "did suffix is empty")
         ∧ ResolveDocument rW envW (gs "did:ex:")
             = .error (badRequestErr (gs "did suffix is empty")))) :=
  C9_suffix_extraction rW envW (gs "did:ex:") (gs "did:ex") (gs "did:ex:")
    (gs "did:ex") [] none pvW (by decide) (by decide) ⟨[], [], by decide⟩
    rfl rfl rfl

end Sidetree
